import Mathlib

/-!
Shallow embedding of the EulerProbability repository (src/main.cpp and
src/BlueNoiseStream.h) and verification of the specification claims.

Modelling conventions:
- C machine integers become `Nat` with explicit `% 2^w` where wrap-around
  matters.
- C `float` arithmetic is modelled over `ℚ` (exact arithmetic).  The one
  place where rounding of a binary32 value is itself the subject of a claim
  is the integer-to-float cast inside `PCGRandomFloat01`; there the cast is
  modelled exactly as IEEE-754 binary32 round-to-nearest-even
  (`floatOfUInt32` below).
- The PCG generator itself lives in `pcg/pcg_basic.h`, which is not part of
  the repository sources under src/.  Per the spec it is an opaque seedable
  source of 32-bit words; it is abstracted as a function
  `bits : ℕ → ℕ → ℕ` mapping (streamIndex, drawIndex) to the 32-bit output
  of `pcg32_random_r` for that stream (the global run seed is fixed for a
  run and absorbed into `bits`).
-/

namespace EulerProbability

/-- Test-setting constants from the top of src/main.cpp. -/
def c_lotteryWinFrequency : ℕ := 10000

def c_lotteryTestCountOuter : ℕ := 1000

def c_lotteryTestCountInner : ℕ := 1000

def c_sumTestCountOuter : ℕ := 10000

def c_sumTestCountInner : ℕ := 10000

def c_candidateTestCountOuter : ℕ := 10000

def c_candidateTestCountInner : ℕ := 1000

def c_candidateCount : ℕ := 1000

/-- `c_goldenRatioConjugate = 0.61803398875f` from src/main.cpp, taken at its
decimal value. -/
def c_goldenRatioConjugate : ℚ := 61803398875 / 100000000000

/-- `float Lerp(float A, float B, float t) { return A * (1.0f - t) + B * t; }`
from src/main.cpp, over exact rationals. -/
def Lerp (A B t : ℚ) : ℚ := A * (1 - t) + B * t

/-- Round-to-nearest, ties-to-even, of a natural number onto the multiples of
`2^k` (the significand truncation step of an IEEE-754 conversion). -/
def roundRNE (v k : ℕ) : ℕ :=
  if k = 0 then v
  else
    let q := v / 2 ^ k
    let r := v % 2 ^ k
    if r < 2 ^ (k - 1) then 2 ^ k * q
    else if 2 ^ (k - 1) < r then 2 ^ k * (q + 1)
    else if q % 2 = 0 then 2 ^ k * q else 2 ^ k * (q + 1)

/-- Number of low bits dropped when a value `v < 2^32` is cast to an IEEE-754
binary32 float (24-bit significand): 0 for `v < 2^24`, and `bitlength - 24`
above that. -/
def ulpDrop (v : ℕ) : ℕ :=
  if v < 2 ^ 24 then 0
  else if v < 2 ^ 25 then 1
  else if v < 2 ^ 26 then 2
  else if v < 2 ^ 27 then 3
  else if v < 2 ^ 28 then 4
  else if v < 2 ^ 29 then 5
  else if v < 2 ^ 30 then 6
  else if v < 2 ^ 31 then 7
  else 8

/-- Exact value of the C cast `(float)v` for a 32-bit unsigned `v`, under the
IEEE-754 binary32 default rounding (round to nearest, ties to even).  The
result is always an integer, so it is returned as a natural number. -/
def floatOfUInt32 (v : ℕ) : ℕ := roundRNE v (ulpDrop v)

/-- `float PCGRandomFloat01(pcg32_random_t& rng)` from src/main.cpp (and the
identical private `RandomFloat01` of the stream classes in
src/BlueNoiseStream.h): `ldexpf((float)v, -32)` applied to the 32-bit
generator output `v`.  `ldexpf` scales by an exact power of two, so the only
rounding is the integer-to-float cast. -/
def PCGRandomFloat01 (v : ℕ) : ℚ := (floatOfUInt32 v : ℚ) / 2 ^ 32

/-- `float LinearToUniform(float x) { return x * x; }` from src/main.cpp. -/
def LinearToUniform (x : ℚ) : ℚ := x * x

/-- `float TriangleToUniform(float x)` from src/main.cpp: below 0.5 apply the
ramp inverse-CDF on the doubled value, above apply it mirrored around 1. -/
def TriangleToUniform (x : ℚ) : ℚ :=
  if x < 1 / 2 then LinearToUniform (x * 2) / 2
  else 1 - LinearToUniform ((1 - x) * 2) / 2

/-- `Generate_WhiteNoise(numSamples, sequenceIndex)` from src/main.cpp:
`numSamples` successive draws of the per-stream generator, converted by
`PCGRandomFloat01`.  `bits` abstracts the pcg32 stream (see the header
comment). -/
def Generate_WhiteNoise (bits : ℕ → ℕ → ℕ) (numSamples sequenceIndex : ℕ) :
    List ℚ :=
  (List.range numSamples).map fun i => PCGRandomFloat01 (bits sequenceIndex i)

/-- `Generate_BlueNoise(numSamples, sequenceIndex)` from src/main.cpp: draw
`numSamples + 1` white-noise values; the output vector is value-initialized to
zero and the loop `for (size_t i = 1; i < numSamples; ++i)` fills only the
elements from index 1 on with
`TriangleToUniform((whiteNoise[i+1] - whiteNoise[i] + 1) / 2)`; element 0
keeps its zero initialization. -/
def Generate_BlueNoise (bits : ℕ → ℕ → ℕ) (numSamples sequenceIndex : ℕ) :
    List ℚ :=
  (List.range numSamples).map fun i =>
    if i = 0 then 0
    else TriangleToUniform
      (((Generate_WhiteNoise bits (numSamples + 1) sequenceIndex).getD (i + 1) 0 -
        (Generate_WhiteNoise bits (numSamples + 1) sequenceIndex).getD i 0 + 1) / 2)

/-- `Generate_RedNoise(numSamples, sequenceIndex)` from src/main.cpp: same
shape as `Generate_BlueNoise` but the adjacent pair is summed:
`TriangleToUniform((whiteNoise[i+1] + whiteNoise[i]) / 2)`; element 0 again
keeps its zero initialization. -/
def Generate_RedNoise (bits : ℕ → ℕ → ℕ) (numSamples sequenceIndex : ℕ) :
    List ℚ :=
  (List.range numSamples).map fun i =>
    if i = 0 then 0
    else TriangleToUniform
      (((Generate_WhiteNoise bits (numSamples + 1) sequenceIndex).getD (i + 1) 0 +
        (Generate_WhiteNoise bits (numSamples + 1) sequenceIndex).getD i 0) / 2)

/-- `std::fmod(x, 1.0f)` for a nonnegative argument, as used in
`Generate_GoldenRatio`: the fractional part `x - ⌊x⌋`. -/
def fmod1 (x : ℚ) : ℚ := x - Int.floor x

/-- The iteration of `Generate_GoldenRatio`: starting value `x`, each later
element is `fmod(previous + c_goldenRatioConjugate, 1.0f)`. -/
def goldenFrom (x : ℚ) : ℕ → List ℚ
  | 0 => []
  | Nat.succ n => x :: goldenFrom (fmod1 (x + c_goldenRatioConjugate)) n

/-- `Generate_GoldenRatio(numSamples, sequenceIndex)` from src/main.cpp:
`ret[0]` is the single white-noise draw `Generate_WhiteNoise(1,
sequenceIndex)[0]` and `ret[i] = fmod(ret[i-1] + c_goldenRatioConjugate,
1.0f)` for `i ≥ 1`. -/
def Generate_GoldenRatioSeq (bits : ℕ → ℕ → ℕ)
    (numSamples sequenceIndex : ℕ) : List ℚ :=
  goldenFrom (PCGRandomFloat01 (bits sequenceIndex 0)) numSamples

/-- Stream index used by `LotteryTest` in src/main.cpp for the sub-draw
`slot` (0 = winning-number draw, 1 = player draw) of trial
(`outer`, `inner`) of generator `seq`:
`sequenceIndexBase + testIndex * 2 + slot` with
`sequenceIndexBase = seq * c_lotteryTestCountOuter * c_lotteryTestCountInner * 2`
and `testIndex = outer * c_lotteryTestCountInner + inner`. -/
def lotteryStreamIndex (seq outer inner slot : ℕ) : ℕ :=
  seq * c_lotteryTestCountOuter * c_lotteryTestCountInner * 2 +
    (outer * c_lotteryTestCountInner + inner) * 2 + slot

/-- Stream index used by `SumTest` in src/main.cpp for trial
(`outer`, `inner`) of generator `seq`:
`seq * c_sumTestCountOuter * c_sumTestCountInner +
 (outer * c_sumTestCountOuter + inner)`. -/
def sumStreamIndex (seq outer inner : ℕ) : ℕ :=
  seq * c_sumTestCountOuter * c_sumTestCountInner +
    (outer * c_sumTestCountOuter + inner)

/-- Stream index used by `CandidatesTest` in src/main.cpp for trial
(`outer`, `inner`) of generator `seq`:
`seq * c_candidateTestCountOuter * c_candidateTestCountInner +
 (outer * c_sumTestCountOuter + inner)` — note the inner stride is
`c_sumTestCountOuter` (line 347 of src/main.cpp), not a candidate-test
constant. -/
def candidatesStreamIndex (seq outer inner : ℕ) : ℕ :=
  seq * c_candidateTestCountOuter * c_candidateTestCountInner +
    (outer * c_sumTestCountOuter + inner)

/-- The incremental-averaging fold shared by all three tests in src/main.cpp:
starting from accumulator `acc` after `k` folded outcomes, each outcome `x`
is folded by `acc ← Lerp(acc, x, 1 / (k + 1))`. -/
def foldMeanAux (acc : ℚ) (k : ℕ) : List ℚ → ℚ
  | [] => acc
  | x :: xs => foldMeanAux (Lerp acc x (1 / (k + 1))) (k + 1) xs

/-- Folding a whole bucket of outcomes the way the tests do: accumulator
starts at `0.0f` and the 1-based fold count starts at 1. -/
def foldMean (xs : List ℚ) : ℚ := foldMeanAux 0 0 xs

/-- The scoring loop of `SumTest` in src/main.cpp: accumulate the drawn
samples in order until the running value reaches 1.0; `some (index + 1)` is
the count outcome, `none` is the exhaustion path (the code prints
`[ERROR] Ran out of random numbers.` and folds nothing). -/
def sumTrialCountGo (value : ℚ) (idx : ℕ) : List ℚ → Option ℕ
  | [] => none
  | x :: rest =>
    if 1 ≤ value + x then some (idx + 1)
    else sumTrialCountGo (value + x) (idx + 1) rest

/-- `SumTest` trial outcome for one drawn sequence (value starts at 0.0f,
index at 0). -/
def sumTrialCount (xs : List ℚ) : Option ℕ := sumTrialCountGo 0 0 xs

/-- One inner iteration of `SumTest`'s statistics update: the pair
(`sumCountAvg`, `sumCountSquareAvg`) for the bucket is Lerp-folded only when
the trial produced a count; on exhaustion the accumulators are untouched. -/
def sumTestUpdate (acc : ℚ × ℚ) (j : ℕ) (xs : List ℚ) : ℚ × ℚ :=
  match sumTrialCount xs with
  | none => acc
  | some c => (Lerp acc.1 c (1 / (j + 1)), Lerp acc.2 (c * c) (1 / (j + 1)))

/-- The inner loop of `SumTest` over a bucket: trials are processed in order,
`j` being the inner loop counter; the loop always runs to completion. -/
def sumTestRun (acc : ℚ × ℚ) (j : ℕ) : List (List ℚ) → ℚ × ℚ
  | [] => acc
  | xs :: rest => sumTestRun (sumTestUpdate acc j xs) (j + 1) rest

/-- The exploration-phase maximum of `CandidatesTest` in src/main.cpp:
`bestPreCandidate` starts at 0.0f and is maxed over the first
`preCandidates` drawn values. -/
def bestPreCandidate (candidates : List ℚ) (preCandidates : ℕ) : ℚ :=
  (candidates.take preCandidates).foldl max 0

/-- The selection scan of `CandidatesTest`: walk the indices in order and
return the first index (with its value) whose candidate exceeds `best`. -/
def scanFirstAbove (candidates : List ℚ) (best : ℚ) : List ℕ → Option (ℕ × ℚ)
  | [] => none
  | i :: is =>
    if best < candidates.getD i 0 then some (i, candidates.getD i 0)
    else scanFirstAbove candidates best is

/-- One trial of `CandidatesTest` in src/main.cpp, for candidate pool size
`K` and exploration-phase size `pre`: compute the exploration maximum, scan
indices `pre ≤ i < K` for the first candidate exceeding it; `foundAt` and
`bestCandidate` keep their 0 initializations if none is found, and the
`foundAt == 0` fallback then yields `(K - 1, bestPreCandidate)`.  Returns
(`foundAt`, `bestCandidate`). -/
def secretaryTrial (candidates : List ℚ) (K pre : ℕ) : ℕ × ℚ :=
  let best := bestPreCandidate candidates pre
  let r := (scanFirstAbove candidates best (List.range' pre (K - pre))).getD
    (0, 0)
  if r.1 = 0 then (K - 1, best) else r

/-- The rank loop of `CandidatesTest`: how many candidates in the whole
pool are strictly greater than the selected value. -/
def betterCount (candidates : List ℚ) (best : ℚ) : ℕ :=
  (candidates.filter fun c => best < c).length

/-- Truncation toward zero of a rational, the C cast `int(x)`. -/
def truncQ (x : ℚ) : ℤ := if x < 0 then -Int.floor (-x) else Int.floor x

/-- The coefficient-segment base offset
`int first = std::min(int(x * 4.0f), 3) * 4` of
`BlueNoiseStreamPolynomial::Next` and `RedNoiseStreamPolynomial::Next` in
src/BlueNoiseStream.h. -/
def polySegmentFirst (x : ℚ) : ℤ := min (truncQ (x * 4)) 3 * 4

/-- The filter-and-normalize step of `BlueNoiseStreamPolynomial::Next`:
taps {0.5, -1.0, 0.5} applied to (new draw, lastValues[0], lastValues[1]),
then `y * 0.5f + 0.5f` to map [-1,1] back to [0,1]. -/
def blueNoiseNormalize (value m0 m1 : ℚ) : ℚ :=
  (value * (1 / 2) + m0 * (-1) + m1 * (1 / 2)) * (1 / 2) + 1 / 2

/-- The filter step of `RedNoiseStreamPolynomial::Next`: taps
{0.25, 0.5, 0.25}; `x = y` with no rescale. -/
def redNoiseNormalize (value m0 m1 : ℚ) : ℚ :=
  value * (1 / 4) + m0 * (1 / 2) + m1 * (1 / 4)

/-- The state of `BlueNoiseStreamAppleton` from src/BlueNoiseStream.h:
a 32-bit seed word and the running float `m_p`. -/
structure BlueNoiseStreamAppleton where
  m_seed : ℕ
  m_p : ℚ

/-- The constructor `BlueNoiseStreamAppleton(seed)`: `m_p` starts at 0. -/
def appletonInit (seed : ℕ) : BlueNoiseStreamAppleton :=
  ⟨seed % 2 ^ 32, 0⟩

/-- `BlueNoiseStreamAppleton::GenerateRandomBit`:
`m_seed += (m_seed * m_seed) | 5;` on 32-bit arithmetic, then test the top
bit `m_seed & 0x80000000`.  Returns the new seed and the bit. -/
def generateRandomBit (seed : ℕ) : ℕ × Bool :=
  let s := (seed + (seed * seed ||| 5)) % 2 ^ 32
  (s, s &&& 2147483648 != 0)

/-- `BlueNoiseStreamAppleton::Next`:
`ret = (bit ? 1.0f : -1.0f) / 2.0f - m_p; m_p = ret / 2.0f;` and the
returned sample is `ret * 0.5f + 0.5f`.  Returns (sample, new state). -/
def appletonNextFn (st : BlueNoiseStreamAppleton) : ℚ × BlueNoiseStreamAppleton :=
  let g := generateRandomBit st.m_seed
  let ret := (if g.2 then (1 : ℚ) else -1) / 2 - st.m_p
  (ret * (1 / 2) + 1 / 2, ⟨g.1, ret / 2⟩)

/-- The state of `BlueNoiseStreamAppleton` after `n` calls to `Next`. -/
def appletonIter (st : BlueNoiseStreamAppleton) : ℕ → BlueNoiseStreamAppleton
  | 0 => st
  | Nat.succ n => (appletonNextFn (appletonIter st n)).2

/-! ## Helper lemmas -/

lemma getD_map_range (f : ℕ → ℚ) (n i : ℕ) (h : i < n) :
    ((List.range n).map f).getD i 0 = f i := by
  rw [List.getD_eq_getElem?_getD, List.getElem?_map, List.getElem?_range h]
  rfl

lemma foldMeanAux_eq (xs : List ℚ) : ∀ (acc : ℚ) (k : ℕ), 0 < k + xs.length →
    foldMeanAux acc k xs = ((k : ℚ) * acc + xs.sum) / ((k : ℚ) + xs.length) := by
  induction xs with
  | nil =>
    intro acc k hk
    have hk' : (k : ℚ) ≠ 0 := by
      have : k ≠ 0 := by simp at hk; omega
      exact_mod_cast this
    simp [foldMeanAux]
    field_simp
  | cons x xs ih =>
    intro acc k hk
    have hk1 : ((k : ℚ) + 1) ≠ 0 := by positivity
    have hden : ((k : ℚ) + 1 + (xs.length : ℚ)) ≠ 0 := by positivity
    simp only [foldMeanAux]
    rw [ih _ (k + 1) (by omega)]
    unfold Lerp
    push_cast
    field_simp
    ring

lemma foldMean_eq_sum_div_length (xs : List ℚ) (hx : xs ≠ []) :
    foldMean xs = xs.sum / xs.length := by
  have hlen : 0 < xs.length := List.length_pos.mpr hx
  unfold foldMean
  rw [foldMeanAux_eq xs 0 0 (by omega)]
  norm_num

lemma goldenFrom_head (x : ℚ) (n : ℕ) (h : 0 < n) : (goldenFrom x n).getD 0 0 = x := by
  cases n with
  | zero => omega
  | succ m => rfl

lemma goldenFrom_step (n : ℕ) : ∀ (x : ℚ) (i : ℕ), i + 1 < n →
    (goldenFrom x n).getD (i + 1) 0 =
      fmod1 ((goldenFrom x n).getD i 0 + c_goldenRatioConjugate) := by
  induction n with
  | zero => intro x i h; omega
  | succ m ih =>
    intro x i h
    cases i with
    | zero =>
      have hm : 0 < m := by omega
      simp only [goldenFrom, List.getD_cons_succ, List.getD_cons_zero]
      exact goldenFrom_head _ m hm
    | succ j =>
      simp only [goldenFrom, List.getD_cons_succ]
      exact ih _ j (by omega)

lemma floatOfUInt32_bounds (v : ℕ) (hv : v < 2 ^ 32) :
    floatOfUInt32 v ≤ 2 ^ 32 ∧ (v < 2 ^ 32 - 128 → floatOfUInt32 v < 2 ^ 32) := by
  unfold floatOfUInt32 ulpDrop
  norm_num at hv ⊢
  split_ifs with h1 h2 h3 h4 h5 h6 h7 h8 <;>
    (unfold roundRNE; norm_num; first | omega | (split_ifs <;> omega))

lemma polySegmentFirst_bounds (x : ℚ) (hx : 0 ≤ x) :
    0 ≤ min (truncQ (x * 4)) 3 ∧ min (truncQ (x * 4)) 3 ≤ 3 ∧
      0 ≤ polySegmentFirst x ∧ polySegmentFirst x + 3 ≤ 15 := by
  have h4 : (0 : ℚ) ≤ x * 4 := by linarith
  have ht : 0 ≤ truncQ (x * 4) := by
    unfold truncQ
    rw [if_neg (not_lt.mpr h4)]
    exact Int.floor_nonneg.mpr h4
  have hmin0 : 0 ≤ min (truncQ (x * 4)) 3 := le_min ht (by norm_num)
  have hmin3 : min (truncQ (x * 4)) 3 ≤ 3 := min_le_right _ _
  refine ⟨hmin0, hmin3, ?_, ?_⟩ <;> unfold polySegmentFirst <;> omega

lemma appleton_step (st : BlueNoiseStreamAppleton) (h : |st.m_p| ≤ 1 / 2) :
    |(appletonNextFn st).2.m_p| ≤ 1 / 2 ∧ 0 ≤ (appletonNextFn st).1 ∧
      (appletonNextFn st).1 ≤ 1 := by
  rw [abs_le] at h
  obtain ⟨ha, hb⟩ := h
  unfold appletonNextFn
  cases hg : (generateRandomBit st.m_seed).2 <;>
    simp only [hg, if_true, if_false, Bool.false_eq_true, reduceIte] <;>
    refine ⟨abs_le.mpr ⟨by linarith, by linarith⟩, by linarith, by linarith⟩

lemma appleton_invariant (st : BlueNoiseStreamAppleton) (h : |st.m_p| ≤ 1 / 2) :
    ∀ n, |(appletonIter st n).m_p| ≤ 1 / 2 := by
  intro n
  induction n with
  | zero => exact h
  | succ m ih => exact (appleton_step _ ih).1

/-! ## Claims -/

/-- C1 (code bug evidence): the stream indices derived by `CandidatesTest` are
not pairwise distinct across generator/experiment pairs: with both triples
inside the configured bounds (`outer < c_candidateTestCountOuter`,
`inner < c_candidateTestCountInner`), generator 0 at (outer 1000, inner 0)
and generator 1 at (outer 0, inner 0) derive the same stream index 10000000,
because the inner stride is the copy-pasted `c_sumTestCountOuter` while the
per-generator block is only `c_candidateTestCountOuter *
c_candidateTestCountInner`. -/
theorem c1_candidates_stream_index_collision :
    candidatesStreamIndex 0 1000 0 = candidatesStreamIndex 1 0 0 ∧
    candidatesStreamIndex 0 1000 0 = 10000000 ∧
    1000 < c_candidateTestCountOuter ∧ 0 < c_candidateTestCountInner ∧
    ((0 : ℕ), (1000 : ℕ), (0 : ℕ)) ≠ ((1 : ℕ), (0 : ℕ), (0 : ℕ)) := by
  refine ⟨by decide, by decide, by decide, by decide, by decide⟩

/-- C4: `TriangleToUniform` is the exact inverse-CDF transform of the
symmetric triangular distribution on [0,1]: on `0 ≤ x < 1/2` it returns
`2*x*x`, and on `1/2 ≤ x ≤ 1` it returns `1 - 2*(1-x)*(1-x)`. -/
theorem c4_triangle_to_uniform_inverse_cdf (x : ℚ) (h0 : 0 ≤ x) :
    (x < 1 / 2 → TriangleToUniform x = 2 * x * x) ∧
    (1 / 2 ≤ x → x ≤ 1 → TriangleToUniform x = 1 - 2 * (1 - x) * (1 - x)) := by
  unfold TriangleToUniform LinearToUniform
  constructor
  · intro h
    rw [if_pos h]
    ring
  · intro h _
    rw [if_neg (not_lt.mpr h)]
    ring

/-- Witness for C4 at the concrete input x = 3/4. -/
theorem c4_triangle_to_uniform_inverse_cdf_witness :
    (0 : ℚ) ≤ 3 / 4 ∧
    (((3 : ℚ) / 4 < 1 / 2 → TriangleToUniform (3 / 4) = 2 * (3 / 4) * (3 / 4)) ∧
     (1 / 2 ≤ (3 : ℚ) / 4 → (3 : ℚ) / 4 ≤ 1 →
       TriangleToUniform (3 / 4) = 1 - 2 * (1 - 3 / 4) * (1 - 3 / 4))) :=
  ⟨by norm_num, c4_triangle_to_uniform_inverse_cdf (3 / 4) (by norm_num)⟩

/-- C5: folding any multiset of outcomes one at a time through the
incremental rule `acc ← Lerp(acc, outcome, 1/k)` (k the 1-based fold count,
`acc` starting at 0) yields, in exact arithmetic, the arithmetic mean of the
outcomes, and the result is invariant under reordering of the outcomes. -/
theorem c5_incremental_mean (xs ys : List ℚ) (hx : xs ≠ []) (hp : xs.Perm ys) :
    foldMean xs = xs.sum / xs.length ∧ foldMean ys = foldMean xs := by
  have hy : ys ≠ [] := by
    intro hnil
    apply hx
    have := hp.length_eq
    rw [hnil] at this
    exact List.length_eq_zero.mp this
  refine ⟨foldMean_eq_sum_div_length xs hx, ?_⟩
  rw [foldMean_eq_sum_div_length ys hy, foldMean_eq_sum_div_length xs hx,
    hp.sum_eq, hp.length_eq]

/-- Witness for C5 on the concrete multiset [1, 2] and its reordering
[2, 1]. -/
theorem c5_incremental_mean_witness :
    (([1, 2] : List ℚ) ≠ [] ∧ ([1, 2] : List ℚ).Perm [2, 1]) ∧
    (foldMean [1, 2] = ([1, 2] : List ℚ).sum / ([1, 2] : List ℚ).length ∧
     foldMean [2, 1] = foldMean [1, 2]) :=
  ⟨⟨by simp, List.Perm.swap 2 1 []⟩,
   c5_incremental_mean [1, 2] [2, 1] (by simp) (List.Perm.swap 2 1 [])⟩

/-- C6: when a drawn 25-sample sequence is exhausted before the running sum
reaches 1.0, the trial's outcome is `none` — distinct from every valid
outcome `some c` (the code prints an error on this path) — the bucket's
statistics accumulators are left untouched (no outcome 0 or any other value
is folded), and the inner loop continues with the remaining trials. -/
theorem c6_sum_exhaustion_no_fold (xs : List ℚ) (acc : ℚ × ℚ) (j c : ℕ)
    (rest : List (List ℚ)) (hlen : xs.length = 25)
    (h : sumTrialCount xs = none) :
    sumTrialCount xs ≠ some c ∧ sumTestUpdate acc j xs = acc ∧
    sumTestRun acc j (xs :: rest) = sumTestRun acc (j + 1) rest := by
  have hupd : sumTestUpdate acc j xs = acc := by
    unfold sumTestUpdate
    rw [h]
  refine ⟨by simp [h], hupd, ?_⟩
  show sumTestRun (sumTestUpdate acc j xs) (j + 1) rest = sumTestRun acc (j + 1) rest
  rw [hupd]

/-- Witness for C6 on the concrete 25-sample sequence of constant value
1/100 (total 1/4 < 1). -/
theorem c6_sum_exhaustion_no_fold_witness :
    ((List.replicate 25 ((1 : ℚ) / 100)).length = 25 ∧
     sumTrialCount (List.replicate 25 ((1 : ℚ) / 100)) = none) ∧
    (sumTrialCount (List.replicate 25 ((1 : ℚ) / 100)) ≠ some 3 ∧
     sumTestUpdate (0, 0) 0 (List.replicate 25 ((1 : ℚ) / 100)) = (0, 0) ∧
     sumTestRun (0, 0) 0 (List.replicate 25 ((1 : ℚ) / 100) :: []) =
       sumTestRun (0, 0) (0 + 1) []) :=
  ⟨⟨by simp, by norm_num [sumTrialCount, sumTrialCountGo, List.replicate]⟩,
   c6_sum_exhaustion_no_fold _ (0, 0) 0 3 [] (by simp)
     (by norm_num [sumTrialCount, sumTrialCountGo, List.replicate])⟩

/-- C10: for `BlueNoiseStreamAppleton` constructed from any seed, the running
state `m_p` is 0 initially and satisfies `|m_p| ≤ 1/2` after every number of
calls to `Next()`, and consequently the value returned by the next call to
`Next()` always lies in [0, 1]. -/
theorem c10_appleton_invariant (seed n : ℕ) :
    (appletonInit seed).m_p = 0 ∧
    |(appletonIter (appletonInit seed) n).m_p| ≤ 1 / 2 ∧
    0 ≤ (appletonNextFn (appletonIter (appletonInit seed) n)).1 ∧
    (appletonNextFn (appletonIter (appletonInit seed) n)).1 ≤ 1 := by
  have h0 : |(appletonInit seed).m_p| ≤ 1 / 2 := by
    unfold appletonInit
    norm_num
  have hinv := appleton_invariant (appletonInit seed) h0 n
  have hstep := appleton_step (appletonIter (appletonInit seed) n) hinv
  exact ⟨rfl, hinv, hstep.2.1, hstep.2.2⟩

/-- C2 (counterexample to the claim as stated): element 0 of the Design A
blue-noise sequence is not built from the adjacent white-noise pair
(w[0], w[1]): for the concrete 32-bit source emitting 0 then 2^31, element 0
of `Generate_BlueNoise 2 0` is 0 (the loop starts at i = 1 and leaves the
zero initialization), while the pair formula gives
`TriangleToUniform((w[1] - w[0] + 1) / 2) = 7/8`. -/
theorem c2_claim_counterexample :
    (Generate_BlueNoise (fun _ i => if i = 0 then 0 else 2 ^ 31) 2 0).getD 0 0 = 0 ∧
    TriangleToUniform
        ((PCGRandomFloat01 ((fun (_ i : ℕ) => if i = 0 then 0 else 2 ^ 31) 0 (0 + 1)) -
          PCGRandomFloat01 ((fun (_ i : ℕ) => if i = 0 then 0 else 2 ^ 31) 0 0) + 1) / 2) =
      7 / 8 ∧
    (0 : ℚ) ≠ 7 / 8 := by
  refine ⟨by norm_num [Generate_BlueNoise, List.range_succ], ?_, by norm_num⟩
  have h0 : floatOfUInt32 0 = 0 := by decide
  have h1 : floatOfUInt32 2147483648 = 2147483648 := by decide
  norm_num [PCGRandomFloat01, h0, h1, TriangleToUniform, LinearToUniform]

/-- C2 (amended): for every 32-bit source, count n and stream s, element 0 of
the Design A blue and red sequences is 0 (its zero initialization; the fill
loop starts at index 1), and every element i with `1 ≤ i < n` is built from
the adjacent white-noise pair (w[i], w[i+1]):
blue[i] = `TriangleToUniform((w[i+1] - w[i] + 1) / 2)` and
red[i] = `TriangleToUniform((w[i+1] + w[i]) / 2)`. -/
theorem c2_design_a_pair_construction (bits : ℕ → ℕ → ℕ) (n s i : ℕ)
    (h1 : 1 ≤ i) (h2 : i < n) :
    (Generate_BlueNoise bits n s).getD 0 0 = 0 ∧
    (Generate_RedNoise bits n s).getD 0 0 = 0 ∧
    (Generate_BlueNoise bits n s).getD i 0 =
      TriangleToUniform
        ((PCGRandomFloat01 (bits s (i + 1)) - PCGRandomFloat01 (bits s i) + 1) / 2) ∧
    (Generate_RedNoise bits n s).getD i 0 =
      TriangleToUniform
        ((PCGRandomFloat01 (bits s (i + 1)) + PCGRandomFloat01 (bits s i)) / 2) := by
  have h0 : 0 < n := by omega
  have hw1 : (Generate_WhiteNoise bits (n + 1) s).getD (i + 1) 0 =
      PCGRandomFloat01 (bits s (i + 1)) := by
    unfold Generate_WhiteNoise
    exact getD_map_range _ (n + 1) (i + 1) (by omega)
  have hw0 : (Generate_WhiteNoise bits (n + 1) s).getD i 0 =
      PCGRandomFloat01 (bits s i) := by
    unfold Generate_WhiteNoise
    exact getD_map_range _ (n + 1) i (by omega)
  unfold Generate_BlueNoise Generate_RedNoise
  rw [getD_map_range _ n 0 h0, getD_map_range _ n 0 h0,
    getD_map_range _ n i h2, getD_map_range _ n i h2, hw0, hw1]
  have hi0 : i ≠ 0 := by omega
  simp [hi0]

/-- Witness for C2 (amended) at the concrete source emitting 0 then 2^31,
with n = 2, s = 0, i = 1. -/
theorem c2_design_a_pair_construction_witness :
    ((1 : ℕ) ≤ 1 ∧ 1 < 2) ∧
    ((Generate_BlueNoise (fun _ i => if i = 0 then 0 else 2 ^ 31) 2 0).getD 0 0 = 0 ∧
     (Generate_RedNoise (fun _ i => if i = 0 then 0 else 2 ^ 31) 2 0).getD 0 0 = 0 ∧
     (Generate_BlueNoise (fun _ i => if i = 0 then 0 else 2 ^ 31) 2 0).getD 1 0 =
       TriangleToUniform
         ((PCGRandomFloat01 ((fun (_ i : ℕ) => if i = 0 then 0 else 2 ^ 31) 0 (1 + 1)) -
           PCGRandomFloat01 ((fun (_ i : ℕ) => if i = 0 then 0 else 2 ^ 31) 0 1) + 1) / 2) ∧
     (Generate_RedNoise (fun _ i => if i = 0 then 0 else 2 ^ 31) 2 0).getD 1 0 =
       TriangleToUniform
         ((PCGRandomFloat01 ((fun (_ i : ℕ) => if i = 0 then 0 else 2 ^ 31) 0 (1 + 1)) +
           PCGRandomFloat01 ((fun (_ i : ℕ) => if i = 0 then 0 else 2 ^ 31) 0 1)) / 2)) :=
  ⟨⟨le_refl 1, by norm_num⟩,
   c2_design_a_pair_construction (fun _ i => if i = 0 then 0 else 2 ^ 31) 2 0 1
     (le_refl 1) (by norm_num)⟩

/-- C3 (counterexample to the claim as stated): the float conversion
`ldexpf((float)v, -32)` does not return a value strictly below 1 for all
2^32 inputs: at v = 2^32 - 1 the cast `(float)v` rounds up to 2^32 under
round-to-nearest-even, so the result is exactly 1. -/
theorem c3_claim_counterexample :
    PCGRandomFloat01 (2 ^ 32 - 1) = 1 ∧ ¬ PCGRandomFloat01 (2 ^ 32 - 1) < 1 ∧
    2 ^ 32 - 1 < 2 ^ 32 := by
  have h : floatOfUInt32 (2 ^ 32 - 1) = 2 ^ 32 := by decide
  unfold PCGRandomFloat01
  rw [h]
  norm_num

/-- C3 (amended): for every 32-bit input v, `PCGRandomFloat01` returns a
value in [0, 1]; it is strictly below 1 whenever `v < 2^32 - 128` (the 128
largest inputs round up to exactly 1.0). -/
theorem c3_random_float01_range (v : ℕ) (hv : v < 2 ^ 32) :
    0 ≤ PCGRandomFloat01 v ∧ PCGRandomFloat01 v ≤ 1 ∧
    (v < 2 ^ 32 - 128 → PCGRandomFloat01 v < 1) := by
  obtain ⟨hle, hlt⟩ := floatOfUInt32_bounds v hv
  unfold PCGRandomFloat01
  refine ⟨by positivity, ?_, fun h => ?_⟩
  · rw [div_le_one (by positivity)]
    exact_mod_cast hle
  · rw [div_lt_one (by positivity)]
    exact_mod_cast hlt h

/-- Witness for C3 (amended) at the concrete input v = 123. -/
theorem c3_random_float01_range_witness :
    123 < 2 ^ 32 ∧
    (0 ≤ PCGRandomFloat01 123 ∧ PCGRandomFloat01 123 ≤ 1 ∧
     (123 < 2 ^ 32 - 128 → PCGRandomFloat01 123 < 1)) :=
  ⟨by norm_num, c3_random_float01_range 123 (by norm_num)⟩

/-- C7: the golden-ratio sequence satisfies the additive recurrence: element
0 is the single white-noise draw for the stream, and every element i with
`0 < i < n` equals `fmod(seq[i-1] + 0.61803398875, 1)`. -/
theorem c7_golden_ratio_recurrence (bits : ℕ → ℕ → ℕ) (n s i : ℕ)
    (h1 : 0 < i) (h2 : i < n) :
    (Generate_GoldenRatioSeq bits n s).getD 0 0 = PCGRandomFloat01 (bits s 0) ∧
    (Generate_GoldenRatioSeq bits n s).getD i 0 =
      fmod1 ((Generate_GoldenRatioSeq bits n s).getD (i - 1) 0 +
        c_goldenRatioConjugate) := by
  obtain ⟨j, rfl⟩ : ∃ j, i = j + 1 := ⟨i - 1, by omega⟩
  unfold Generate_GoldenRatioSeq
  refine ⟨goldenFrom_head _ n (by omega), ?_⟩
  simpa using goldenFrom_step n _ j (by omega)

/-- Witness for C7 at the constant-zero source with n = 2, s = 0, i = 1. -/
theorem c7_golden_ratio_recurrence_witness :
    ((0 : ℕ) < 1 ∧ 1 < 2) ∧
    ((Generate_GoldenRatioSeq (fun _ _ => 0) 2 0).getD 0 0 =
       PCGRandomFloat01 ((fun (_ _ : ℕ) => 0) 0 0) ∧
     (Generate_GoldenRatioSeq (fun _ _ => 0) 2 0).getD 1 0 =
       fmod1 ((Generate_GoldenRatioSeq (fun _ _ => 0) 2 0).getD (1 - 1) 0 +
         c_goldenRatioConjugate)) :=
  ⟨⟨by norm_num, by norm_num⟩,
   c7_golden_ratio_recurrence (fun _ _ => 0) 2 0 1 (by norm_num) (by norm_num)⟩

/-- C8: the secretary rule on the concrete 4-element candidate list
[0.2, 0.9, 0.3, 0.5] with exploration-phase size ⌊4/e⌋ = 1: the exploration
maximum is 0.2, the first post-exploration candidate exceeding it is 0.9 at
index 1, so the selection outcome is index 1 with value 0.9 and the rank
outcome (candidates strictly greater than 0.9 among all 4) is 0. -/
theorem c8_secretary_literal_case :
    Nat.floor ((4 : ℝ) / Real.exp 1) = 1 ∧
    bestPreCandidate [1 / 5, 9 / 10, 3 / 10, 1 / 2] 1 = 1 / 5 ∧
    secretaryTrial [1 / 5, 9 / 10, 3 / 10, 1 / 2] 4 1 = (1, 9 / 10) ∧
    betterCount [1 / 5, 9 / 10, 3 / 10, 1 / 2] (9 / 10) = 0 := by
  have hb : bestPreCandidate [1 / 5, 9 / 10, 3 / 10, 1 / 2] 1 = 1 / 5 := by
    norm_num [bestPreCandidate, List.take]
  have hfloor : Nat.floor ((4 : ℝ) / Real.exp 1) = 1 := by
    have he1 : Real.exp 1 < 2.7182818286 := Real.exp_one_lt_d9
    have he2 : (2.7182818283 : ℝ) < Real.exp 1 := Real.exp_one_gt_d9
    have hepos : (0 : ℝ) < Real.exp 1 := Real.exp_pos 1
    norm_num at he1 he2
    rw [Nat.floor_eq_iff (by positivity)]
    push_cast
    constructor
    · rw [le_div_iff₀ hepos]
      nlinarith
    · rw [div_lt_iff₀ hepos]
      nlinarith
  refine ⟨hfloor, hb, ?_, by norm_num [betterCount, List.filter]⟩
  have hr : List.range' 1 (4 - 1) = [1, 2, 3] := by rfl
  unfold secretaryTrial
  rw [hr, hb]
  norm_num [scanFirstAbove, List.getD, List.getElem?_cons]

/-- C9: with all three filter inputs (the fresh draw and the two history
values) in [0, 1], the normalized blue and red filter outputs are in [0, 1],
so the segment selector `min(int(x*4), 3)` lies in [0, 3] and the
coefficient accesses `first .. first+3` stay inside the 16-element array;
the boundary input x = 1 clamps to the last segment (`first = 12`). -/
theorem c9_poly_segment_in_bounds (value m0 m1 : ℚ)
    (hv0 : 0 ≤ value) (hv1 : value ≤ 1) (h00 : 0 ≤ m0) (h01 : m0 ≤ 1)
    (h10 : 0 ≤ m1) (h11 : m1 ≤ 1) :
    (0 ≤ min (truncQ (blueNoiseNormalize value m0 m1 * 4)) 3 ∧
     min (truncQ (blueNoiseNormalize value m0 m1 * 4)) 3 ≤ 3 ∧
     0 ≤ polySegmentFirst (blueNoiseNormalize value m0 m1) ∧
     polySegmentFirst (blueNoiseNormalize value m0 m1) + 3 ≤ 15) ∧
    (0 ≤ min (truncQ (redNoiseNormalize value m0 m1 * 4)) 3 ∧
     min (truncQ (redNoiseNormalize value m0 m1 * 4)) 3 ≤ 3 ∧
     0 ≤ polySegmentFirst (redNoiseNormalize value m0 m1) ∧
     polySegmentFirst (redNoiseNormalize value m0 m1) + 3 ≤ 15) ∧
    polySegmentFirst 1 = 12 := by
  have hxb : 0 ≤ blueNoiseNormalize value m0 m1 := by
    unfold blueNoiseNormalize
    nlinarith
  have hxr : 0 ≤ redNoiseNormalize value m0 m1 := by
    unfold redNoiseNormalize
    nlinarith
  exact ⟨polySegmentFirst_bounds _ hxb, polySegmentFirst_bounds _ hxr,
    by norm_num [polySegmentFirst, truncQ]⟩

/-- Witness for C9 at the concrete inputs value = 1, m0 = 0, m1 = 1/2. -/
theorem c9_poly_segment_in_bounds_witness :
    ((0 : ℚ) ≤ 1 ∧ (1 : ℚ) ≤ 1 ∧ (0 : ℚ) ≤ 0 ∧ (0 : ℚ) ≤ 1 ∧
     (0 : ℚ) ≤ 1 / 2 ∧ (1 : ℚ) / 2 ≤ 1) ∧
    ((0 ≤ min (truncQ (blueNoiseNormalize 1 0 (1 / 2) * 4)) 3 ∧
      min (truncQ (blueNoiseNormalize 1 0 (1 / 2) * 4)) 3 ≤ 3 ∧
      0 ≤ polySegmentFirst (blueNoiseNormalize 1 0 (1 / 2)) ∧
      polySegmentFirst (blueNoiseNormalize 1 0 (1 / 2)) + 3 ≤ 15) ∧
     (0 ≤ min (truncQ (redNoiseNormalize 1 0 (1 / 2) * 4)) 3 ∧
      min (truncQ (redNoiseNormalize 1 0 (1 / 2) * 4)) 3 ≤ 3 ∧
      0 ≤ polySegmentFirst (redNoiseNormalize 1 0 (1 / 2)) ∧
      polySegmentFirst (redNoiseNormalize 1 0 (1 / 2)) + 3 ≤ 15) ∧
     polySegmentFirst 1 = 12) :=
  ⟨⟨by norm_num, by norm_num, by norm_num, by norm_num, by norm_num, by norm_num⟩,
   c9_poly_segment_in_bounds 1 0 (1 / 2) (by norm_num) (by norm_num) (by norm_num)
     (by norm_num) (by norm_num) (by norm_num)⟩

end EulerProbability
